import Mathlib

/-!
Verification development for the AutoRequire repository (a VS Code extension
resolving Roblox module references).  The TypeScript sources are shallowly
embedded: JS strings become `List Char`, JS numbers become `ℚ`, maps become
association lists, and the mutable caches of the resolver classes are elided
(each embedded function is the pure function of its inputs that the source
computes on a cache miss).
-/

namespace AutoRequire

/-- JS `s.toLowerCase()` on a string modelled as a char list (ASCII). -/
def lowerL (s : List Char) : List Char := s.map Char.toLower

/-! ## fuzzyMatcher.ts -/

/-- The QWERTY `keyboardProximity` table from `src/fuzzyMatcher.ts`
(`Map<string, string[]>`), as an association list. -/
def keyboardProximityList : List (Char × List Char) :=
  [ ('q', ['w', 'a', 's'])
  , ('w', ['q', 'e', 'a', 's', 'd'])
  , ('e', ['w', 'r', 's', 'd', 'f'])
  , ('r', ['e', 't', 'd', 'f', 'g'])
  , ('t', ['r', 'y', 'f', 'g', 'h'])
  , ('y', ['t', 'u', 'g', 'h', 'j'])
  , ('u', ['y', 'i', 'h', 'j', 'k'])
  , ('i', ['u', 'o', 'j', 'k', 'l'])
  , ('o', ['i', 'p', 'k', 'l'])
  , ('p', ['o', 'l'])
  , ('a', ['q', 'w', 's', 'z', 'x'])
  , ('s', ['q', 'w', 'e', 'a', 'd', 'z', 'x', 'c'])
  , ('d', ['w', 'e', 'r', 's', 'f', 'x', 'c', 'v'])
  , ('f', ['e', 'r', 't', 'd', 'g', 'c', 'v', 'b'])
  , ('g', ['r', 't', 'y', 'f', 'h', 'v', 'b', 'n'])
  , ('h', ['t', 'y', 'u', 'g', 'j', 'b', 'n', 'm'])
  , ('j', ['y', 'u', 'i', 'h', 'k', 'n', 'm'])
  , ('k', ['u', 'i', 'o', 'j', 'l', 'm'])
  , ('l', ['i', 'o', 'p', 'k'])
  , ('z', ['a', 's', 'x'])
  , ('x', ['a', 's', 'd', 'z', 'c'])
  , ('c', ['s', 'd', 'f', 'x', 'v'])
  , ('v', ['d', 'f', 'g', 'c', 'b'])
  , ('b', ['f', 'g', 'h', 'v', 'n'])
  , ('n', ['g', 'h', 'j', 'b', 'm'])
  , ('m', ['h', 'j', 'k', 'n'])
  ]

/-- The `Map.get` on the proximity table; a missing key yields `[]`
(JS `undefined`, which the caller treats as "no neighbours"). -/
def proxGet : List (Char × List Char) → Char → List Char
  | [], _ => []
  | (k, v) :: rest, c => if c = k then v else proxGet rest c

/-- The `areKeysAdjacent(char1, char2)` from `src/fuzzyMatcher.ts`: lower-case
both characters, look the first up in the proximity table and test membership
of the second (false when the key is absent). -/
def areKeysAdjacent (c1 c2 : Char) : Bool :=
  (proxGet keyboardProximityList c1.toLower).contains c2.toLower

/-- The substitution cost used inside `keyboardAwareDistance`: 0 for equal
(lower-cased) characters, 0.5 for keyboard-adjacent ones, 1 otherwise. -/
def substCost (c1 c2 : Char) : ℚ :=
  if c1 = c2 then 0 else if areKeysAdjacent c1 c2 then 1/2 else 1

/-- The `str[k].toLowerCase()`: the lower-cased `k`-th character of `s`
(with an arbitrary placeholder for out-of-range `k`, which the distance
recurrence never dereferences meaningfully). -/
def chAt (s : List Char) (k : ℕ) : Char := (s.getD k ' ').toLower

/-- The defining recurrence of the `dp` table of `keyboardAwareDistance`
(`src/fuzzyMatcher.ts` lines 158-200), written as a fuel-indexed top-down
recursion so that it is structurally recursive.  `kadAux s t fuel i j` is
`dp[i][j]` whenever `i + j < fuel`:
`dp[i][0] = i`, `dp[0][j] = j`, and otherwise the minimum of deletion
(`dp[i-1][j] + 1`), insertion (`dp[i][j-1] + 1`), substitution
(`dp[i-1][j-1] + cost`) and — when the two trailing characters are swapped —
transposition (`dp[i-2][j-2] + 0.5`). -/
def kadAux (s t : List Char) : ℕ → ℕ → ℕ → ℚ
  | 0, _, _ => 0
  | _ + 1, 0, j => (j : ℚ)
  | _ + 1, i + 1, 0 => ((i : ℚ) + 1)
  | fuel + 1, i + 1, j + 1 =>
      if 1 ≤ i ∧ 1 ≤ j ∧ chAt s i = chAt t (j - 1) ∧ chAt s (i - 1) = chAt t j then
        min (min (kadAux s t fuel i (j + 1) + 1)
              (min (kadAux s t fuel (i + 1) j + 1)
                (kadAux s t fuel i j + substCost (chAt s i) (chAt t j))))
          (kadAux s t fuel (i - 1) (j - 1) + 1/2)
      else
        min (kadAux s t fuel i (j + 1) + 1)
          (min (kadAux s t fuel (i + 1) j + 1)
            (kadAux s t fuel i j + substCost (chAt s i) (chAt t j)))

/-- The `dp[i][j]` of `keyboardAwareDistance`, with just enough fuel. -/
def KD (s t : List Char) (i j : ℕ) : ℚ := kadAux s t (i + j + 1) i j

/-- The `keyboardAwareDistance(str1, str2)` from `src/fuzzyMatcher.ts`:
the final table entry `dp[m][n]`. -/
def keyboardAwareDistance (s t : List Char) : ℚ := KD s t s.length t.length

/-- The `characterFrequencySimilarity(str1, str2)` from `src/fuzzyMatcher.ts`:
the multiset intersection of the lower-cased character counts, divided by the
longer length (1 when both strings are empty). -/
def characterFrequencySimilarity (s1 s2 : List Char) : ℚ :=
  let l1 := lowerL s1
  let l2 := lowerL s2
  let commonCount : ℕ := (l1.dedup.map (fun c => min (l1.count c) (l2.count c))).sum
  let totalChars : ℕ := max l1.length l2.length
  if totalChars = 0 then 1 else (commonCount : ℚ) / (totalChars : ℚ)

/-- The loop of `subsequenceMatch` (`src/fuzzyMatcher.ts` lines 60-81):
walks the target accumulating the matched count, total gap length and match
positions.  `i` is the target index, `lastMatchPos` the JS variable of the
same name (`-1` before the first match). -/
def subseqAux : List Char → List Char → ℕ → ℤ → ℕ → ℕ → List ℕ → (ℕ × ℕ × List ℕ)
  | _, [], _, _, matched, gaps, positions => (matched, gaps, positions.reverse)
  | [], _ :: _, _, _, matched, gaps, positions => (matched, gaps, positions.reverse)
  | qc :: ql, tc :: tl, i, lastMatchPos, matched, gaps, positions =>
      if tc = qc then
        let extra : ℕ :=
          if lastMatchPos ≠ -1 ∧ (i : ℤ) > lastMatchPos + 1
          then ((i : ℤ) - lastMatchPos - 1).toNat else 0
        subseqAux ql tl (i + 1) (i : ℤ) (matched + 1) (gaps + extra) (i :: positions)
      else subseqAux (qc :: ql) tl (i + 1) lastMatchPos matched gaps positions

/-- The `subsequenceMatch(query, target)` from `src/fuzzyMatcher.ts`: greedy
in-order matching of the lower-cased query against the lower-cased target,
returning `(matched, gaps, positions)`. -/
def subsequenceMatch (query target : List Char) : ℕ × ℕ × List ℕ :=
  subseqAux (lowerL query) (lowerL target) 0 (-1) 0 0 []

/-- The match tiers of `FuzzyMatchResult.matchType`.  (`prefix` is a Lean
keyword and `none` clashes with `Option`, hence `prefixT` / `noneT`.) -/
inductive MatchType where
  | exact | prefixT | substring | subsequence | fuzzy | noneT
deriving DecidableEq, Repr

/-- The `FuzzyMatchResult` from `src/fuzzyMatcher.ts`. -/
structure FuzzyMatchResult where
  score : ℚ
  isMatch : Bool
  matchType : MatchType
deriving DecidableEq, Repr

/-- The `FuzzyMatchOptions` from `src/fuzzyMatcher.ts` (already merged with
`defaultOptions`, as `fuzzyMatch` does on entry). -/
structure FuzzyMatchOptions where
  minScore : ℚ
  levenshteinWeight : ℚ
  subsequenceWeight : ℚ
  frequencyWeight : ℚ
  prefixBonus : ℚ
  allowVeryFuzzy : Bool
deriving Repr

/-- The `defaultOptions` from `src/fuzzyMatcher.ts`. -/
def defaultOptions : FuzzyMatchOptions :=
  { minScore := 3/10
  , levenshteinWeight := 4/10
  , subsequenceWeight := 35/100
  , frequencyWeight := 25/100
  , prefixBonus := 15/100
  , allowVeryFuzzy := true }

/-- The subsequence similarity computed inside `fuzzyMatch`
(matched count over query length), on the already lower-cased strings. -/
def subsequenceScoreOf (ql tl : List Char) : ℚ :=
  ((subsequenceMatch ql tl).1 : ℚ) / (ql.length : ℚ)

/-- The combined weighted score of `fuzzyMatch` (`src/fuzzyMatcher.ts`
lines 272-302) on the already lower-cased strings: keyboard-aware edit
similarity, subsequence similarity with a capped gap penalty, character
frequency similarity, first-character bonus, length-ratio dampening, then
clamped to [0, 1]. -/
def combinedScore (ql tl : List Char) (opts : FuzzyMatchOptions) : ℚ :=
  let keyboardDist := keyboardAwareDistance ql tl
  let maxLen : ℚ := (max ql.length tl.length : ℕ)
  let levenshteinScore := 1 - keyboardDist / maxLen
  let sub := subsequenceMatch ql tl
  let subsequenceScore := subsequenceScoreOf ql tl
  let gapPenalty : ℚ := if 0 < sub.2.1 then min (3/10) ((sub.2.1 : ℚ) * (2/100)) else 0
  let freqScore := characterFrequencySimilarity ql tl
  let score0 := levenshteinScore * opts.levenshteinWeight
    + (subsequenceScore - gapPenalty) * opts.subsequenceWeight
    + freqScore * opts.frequencyWeight
  let score1 := if ql.head? == tl.head? then score0 + opts.prefixBonus else score0
  let lengthRatio : ℚ := ((min ql.length tl.length : ℕ) : ℚ) / ((max ql.length tl.length : ℕ) : ℚ)
  let score2 := score1 * (7/10 + lengthRatio * (3/10))
  min 1 (max 0 score2)

/-- The `fuzzyMatch(query, target, options)` from `src/fuzzyMatcher.ts`:
empty-query, exact, prefix and substring fast paths, then the combined
weighted score with tier classification and the very-fuzzy salvage branch. -/
def fuzzyMatch (query target : List Char) (opts : FuzzyMatchOptions) : FuzzyMatchResult :=
  let queryLower := lowerL query
  let targetLower := lowerL target
  if queryLower.length = 0 then
    { score := 1/10, isMatch := true, matchType := .fuzzy }
  else if queryLower = targetLower then
    { score := 1, isMatch := true, matchType := .exact }
  else if queryLower.isPrefixOf targetLower then
    let lengthRatio : ℚ := (queryLower.length : ℚ) / (targetLower.length : ℚ)
    { score := 9/10 + lengthRatio * (1/10), isMatch := true, matchType := .prefixT }
  else if queryLower <:+: targetLower then
    let lengthRatio : ℚ := (queryLower.length : ℚ) / (targetLower.length : ℚ)
    { score := 7/10 + lengthRatio * (2/10), isMatch := true, matchType := .substring }
  else
    let score := combinedScore queryLower targetLower opts
    let subsequenceScore := subsequenceScoreOf queryLower targetLower
    let freqScore := characterFrequencySimilarity queryLower targetLower
    let matchType : MatchType :=
      if 8/10 ≤ subsequenceScore then .subsequence
      else if opts.minScore ≤ score then .fuzzy
      else .noneT
    let result : ℚ × MatchType :=
      if opts.allowVeryFuzzy ∧ 7/10 ≤ freqScore ∧ score < opts.minScore then
        (max score (freqScore * (1/2)), MatchType.fuzzy)
      else (score, matchType)
    { score := result.1, isMatch := decide (opts.minScore ≤ result.1), matchType := result.2 }

/-- The `RankedMatch<T>` from `src/fuzzyMatcher.ts`. -/
structure RankedMatch (T : Type) where
  item : T
  score : ℚ
  matchType : MatchType

/-- The result-collection loop of `rankMatches` (`src/fuzzyMatcher.ts`
lines 340-360): for each item take the best-scoring field (strict
improvement, starting from score 0 / tier none) and keep the item unless its
best tier is `none`. -/
def collectMatches {T : Type} (query : List Char) (items : List T)
    (getSearchText : T → List (List Char)) (opts : FuzzyMatchOptions) :
    List (RankedMatch T) :=
  items.filterMap (fun item =>
    let best := (getSearchText item).foldl
      (fun (acc : ℚ × MatchType) text =>
        let r := fuzzyMatch query text opts
        if acc.1 < r.score then (r.score, r.matchType) else acc)
      (0, MatchType.noneT)
    if best.2 ≠ MatchType.noneT then some ⟨item, best.1, best.2⟩ else none)

/-- One step of the stable sort of `rankMatches`
(`results.sort((a, b) => b.score - a.score)`, a stable sort by score
descending): insert `x` in front of the first element whose score does not
exceed it, so that earlier input stays in front on ties. -/
def insertDesc {T : Type} (x : RankedMatch T) : List (RankedMatch T) → List (RankedMatch T)
  | [] => [x]
  | y :: ys => if y.score ≤ x.score then x :: y :: ys else y :: insertDesc x ys

/-- The stable descending-by-score sort of `rankMatches`. -/
def sortByScoreDesc {T : Type} (l : List (RankedMatch T)) : List (RankedMatch T) :=
  l.foldr insertDesc []

/-- The `rankMatches(query, items, getSearchText, options)` from
`src/fuzzyMatcher.ts`: collect the per-item best matches, then stable-sort
by score descending. -/
def rankMatches {T : Type} (query : List Char) (items : List T)
    (getSearchText : T → List (List Char)) (opts : FuzzyMatchOptions) :
    List (RankedMatch T) :=
  sortByScoreDesc (collectMatches query items getSearchText opts)

/-! ## Shared string helpers (JS string / node `path` primitives) -/

/-- JS `String.prototype.split(sep)` for a one-character separator:
`"a.b".split('.') = ["a","b"]`, `"".split('.') = [""]`. -/
def splitOnChar (sep : Char) : List Char → List (List Char)
  | [] => [[]]
  | c :: rest =>
      match splitOnChar sep rest with
      | [] => if c = sep then [[], []] else [[c]]
      | acc :: accs => if c = sep then [] :: acc :: accs else (c :: acc) :: accs

/-- The `Array.prototype.join('.')`. -/
def joinDots (l : List (List Char)) : List Char := List.intercalate ['.'] l

/-- Association-list lookup (JS `Map.get` / object indexing). -/
def lookupAssoc {α β : Type} [DecidableEq α] : List (α × β) → α → Option β
  | [], _ => none
  | (k, v) :: rest, c => if c = k then some v else lookupAssoc rest c

/-- The `.replace(/\\/g, '/')`: path-separator canonicalization. -/
def normSlashes (s : List Char) : List Char :=
  s.map (fun c => if c = '\\' then '/' else c)

/-- Case-insensitive anchored suffix strip: `some` of the prefix when the
lower-cased string ends with the lower-cased suffix, else `none`.  This is
the building block for the `replace(/…$/i, '')` idioms of the sources. -/
def dropSuffixCI (s sfx : List Char) : Option (List Char) :=
  if (lowerL sfx).isSuffixOf (lowerL s) then some (s.take (s.length - sfx.length)) else none

/-- The `segment.replace(/\.(server|client)?\.luau$/i, '')` (part_003
`processPathSegments`, and the catch-branch of `resolveInstancePath`).
Note the regex requires a literal dot *before* the optional role group, so a
plain `.luau` extension (with no role and no second dot) is NOT stripped;
only `.server.luau`, `.client.luau` and `..luau` are. -/
def stripRojoExt (s : List Char) : List Char :=
  match dropSuffixCI s (".server.luau".data) with
  | some r => r
  | none =>
    match dropSuffixCI s (".client.luau".data) with
    | some r => r
    | none =>
      match dropSuffixCI s ("..luau".data) with
      | some r => r
      | none => s

/-- The `seg.replace(/\.(server|client)?\.(luau|lua)$/i, '')` (part_003
convention fallback, first replace).  Same double-dot shape as
`stripRojoExt`, with both `.luau` and `.lua`. -/
def stripConvExt1 (s : List Char) : List Char :=
  match dropSuffixCI s (".server.luau".data) with
  | some r => r
  | none =>
    match dropSuffixCI s (".client.luau".data) with
    | some r => r
    | none =>
      match dropSuffixCI s (".server.lua".data) with
      | some r => r
      | none =>
        match dropSuffixCI s (".client.lua".data) with
        | some r => r
        | none =>
          match dropSuffixCI s ("..luau".data) with
          | some r => r
          | none =>
            match dropSuffixCI s ("..lua".data) with
            | some r => r
            | none => s

/-- The `segment.replace(/\.(luau|lua)$/i, '')` (part_003 convention fallback,
second replace, and `getFileNameWithoutExtension`). -/
def stripConvExt2 (s : List Char) : List Char :=
  match dropSuffixCI s (".luau".data) with
  | some r => r
  | none =>
    match dropSuffixCI s (".lua".data) with
    | some r => r
    | none => s

/-- The `fileName.replace(/\.(lua|luau)$/, '')` of the older
`src/pathResolver.ts` (case-sensitive). -/
def oldStripExt (s : List Char) : List Char :=
  if (".luau".data).isSuffixOf s then s.take (s.length - 5)
  else if (".lua".data).isSuffixOf s then s.take (s.length - 4)
  else s

/-- Node `path.basename`: the last `/`-separated component. -/
def pathBasename (p : List Char) : List Char := (splitOnChar '/' p).getLastD []

/-- Node `path.join(base, p)` simplified to concatenation with a separator
(no `..`/`.` normalization — the embedded inputs never use those). -/
def pathJoin (base p : List Char) : List Char := base ++ '/' :: p

/-- Node `path.relative(base, p)` for the case the sources rely on
(`p` inside `base`, both absolute): strip `base` plus the separator. -/
def pathRelative (base p : List Char) : List Char :=
  if p = base then []
  else if (base ++ ['/']).isPrefixOf p then p.drop (base.length + 1)
  else p

/-! ## part_003 (`pathResolver.ts`, current version) -/

/-- The `isValidLuaIdentifier(name)`: the regex `^[a-zA-Z_][a-zA-Z0-9_]*$`
(also the inline identifier test of the completion provider). -/
def isValidLuaIdentifier (s : List Char) : Bool :=
  match s with
  | [] => false
  | c :: rest => (c.isAlpha || c = '_') && rest.all (fun d => d.isAlphanum || d = '_')

/-- The `.replace(/\\/g, '\\\\')`: double every backslash. -/
def escapeBackslashes (s : List Char) : List Char :=
  s.flatMap (fun c => if c = '\\' then ['\\', '\\'] else [c])

/-- The `.replace(/"/g, '\\"')`: escape every double quote. -/
def escapeQuotes (s : List Char) : List Char :=
  s.flatMap (fun c => if c = '"' then ['\\', '"'] else [c])

/-- The `formatPathSegment(segment)` from part_003: `.name` for a valid Lua
identifier, otherwise a quoted bracket accessor with backslashes and quotes
escaped. -/
def formatPathSegment (s : List Char) : List Char :=
  if isValidLuaIdentifier s then '.' :: s
  else '[' :: '"' :: escapeQuotes (escapeBackslashes s) ++ ['"', ']']

/-- The `segments.map(formatPathSegment).join('')`. -/
def buildSegPath (segs : List (List Char)) : List Char :=
  (segs.map formatPathSegment).flatten

/-- A node of `sourcemap.json` (`SourcemapNode` in types.ts); a missing
`filePaths`/`children` field is the empty list (the source skips a falsy
`filePaths` and iterating an empty array is the same). -/
inductive SourcemapNode where
  | mk (name : List Char) (filePaths : List (List Char)) (children : List SourcemapNode)

def SourcemapNode.name : SourcemapNode → List Char
  | .mk n _ _ => n

def SourcemapNode.filePaths : SourcemapNode → List (List Char)
  | .mk _ f _ => f

def SourcemapNode.children : SourcemapNode → List SourcemapNode
  | .mk _ _ c => c

/-- The root of `sourcemap.json` as cached per workspace folder. -/
structure Sourcemap where
  children : List SourcemapNode

/-- The `fullPath.replace(/\.luau$/i, '')` used when comparing sourcemap file
paths. -/
def stripLuauCI (s : List Char) : List Char := (dropSuffixCI s (".luau".data)).getD s

/-- The `searchSourcemapNodeAsSegments` from part_003: depth-first search for a
node one of whose `filePaths` (joined to the workspace path, slashes
normalized, `.luau` stripped) equals the target path, returning the name
segments from the root. -/
def searchSourcemapNodeAsSegments
    (nodes : List SourcemapNode) (targetPath workspacePath : List Char)
    (pathSegments : List (List Char)) : Option (List (List Char)) :=
  match nodes with
  | [] => none
  | SourcemapNode.mk name filePaths children :: rest =>
      let currentPath := pathSegments ++ [name]
      if filePaths.any (fun filePath =>
          stripLuauCI (normSlashes (pathJoin workspacePath filePath)) = stripLuauCI targetPath)
      then some currentPath
      else
        match searchSourcemapNodeAsSegments children targetPath workspacePath currentPath with
        | some r => some r
        | none => searchSourcemapNodeAsSegments rest targetPath workspacePath pathSegments

/-- The `resolveFromSourcemapAsSegments` from part_003 (caches elided: the
sourcemap snapshot is the explicit `smaps` association list). -/
def resolveFromSourcemapAsSegments
    (folders : List (List Char)) (smaps : List (List Char × Sourcemap))
    (fsPath : List Char) : Option (List (List Char)) :=
  match folders.find? (fun f => f.isPrefixOf fsPath) with
  | none => none
  | some wf =>
      match lookupAssoc smaps wf with
      | none => none
      | some sm =>
          searchSourcemapNodeAsSegments sm.children (normSlashes fsPath) (normSlashes wf) []

/-- A node of `default.project.json` (`RojoTreeNode` in types.ts): an
optional `$path` binding and the non-`$` named children (`$className` and
other `$` keys are skipped by the traversal and therefore elided). -/
inductive RojoTreeNode where
  | mk (pathField : Option (List Char)) (children : List (List Char × RojoTreeNode))

def RojoTreeNode.pathField : RojoTreeNode → Option (List Char)
  | .mk p _ => p

/-- The `processPathSegments(segments)` from part_003: strip
`.server.luau`/`.client.luau` role suffixes (see `stripRojoExt`) and drop
segments equal (case-insensitively) to `init`. -/
def processPathSegments (segments : List (List Char)) : List (List Char) :=
  segments.filterMap (fun seg =>
    let s := stripRojoExt seg
    if lowerL s = "init".data then none else some s)

mutual
/-- The `searchRojoTreeAsSegments` from part_003: if the node's `$path` equals
the target relative path or prefixes it at a `/` boundary, return the
accumulated name segments plus the processed remainder; otherwise recurse
into the non-`$` children. -/
def searchRojoTreeAsSegments (node : RojoTreeNode) (targetRelativePath : List Char)
    (pathSegments : List (List Char)) : Option (List (List Char)) :=
  match node with
  | .mk pathField children =>
      let fromPath : Option (List (List Char)) :=
        match pathField with
        | none => none
        | some p0 =>
            let nodePath := normSlashes p0
            if (nodePath ++ ['/']).isPrefixOf targetRelativePath ∨ targetRelativePath = nodePath
            then
              let remainingPath :=
                if targetRelativePath = nodePath then []
                else targetRelativePath.drop (nodePath.length + 1)
              let segments :=
                if remainingPath = [] then ([] : List (List Char))
                else splitOnChar '/' remainingPath
              some (pathSegments ++ processPathSegments segments)
            else none
      match fromPath with
      | some r => some r
      | none => searchRojoChildren children targetRelativePath pathSegments

/-- The child loop of `searchRojoTreeAsSegments` (keys starting with `$`
are skipped). -/
def searchRojoChildren (children : List (List Char × RojoTreeNode))
    (targetRelativePath : List Char) (pathSegments : List (List Char)) :
    Option (List (List Char)) :=
  match children with
  | [] => none
  | (key, child) :: rest =>
      if key.headD ' ' = '$' then searchRojoChildren rest targetRelativePath pathSegments
      else
        match searchRojoTreeAsSegments child targetRelativePath (pathSegments ++ [key]) with
        | some r => some r
        | none => searchRojoChildren rest targetRelativePath pathSegments
end

/-- The `tree` of `default.project.json` (`RojoProject` in types.ts). -/
structure RojoProject where
  tree : RojoTreeNode

/-- The `resolveFromRojoProjectAsSegments` from part_003. -/
def resolveFromRojoProjectAsSegments
    (folders : List (List Char)) (projects : List (List Char × RojoProject))
    (fsPath : List Char) : Option (List (List Char)) :=
  match folders.find? (fun f => f.isPrefixOf fsPath) with
  | none => none
  | some wf =>
      match lookupAssoc projects wf with
      | none => none
      | some project =>
          let normalizedFsPath := normSlashes fsPath
          let workspacePath := normSlashes wf
          let relativePath := normSlashes (pathRelative workspacePath normalizedFsPath)
          searchRojoTreeAsSegments project.tree relativePath []

/-- The `getFileNameWithoutExtension(fsPath)` from part_003. -/
def getFileNameWithoutExtension (fsPath : List Char) : List Char :=
  stripConvExt2 (pathBasename fsPath)

/-- The folder-name → Roblox-service convention table (part_003
`resolveFromConventionAsSegments`), looked up on the lower-cased first
segment. -/
def serviceMapLookup (s : List Char) : Option (List Char) :=
  lookupAssoc
    [ ("src".data, "ReplicatedStorage".data)
    , ("server".data, "ServerScriptService".data)
    , ("client".data, "StarterPlayer.StarterPlayerScripts".data)
    , ("shared".data, "ReplicatedStorage".data)
    , ("replicated".data, "ReplicatedStorage".data)
    , ("replicatedstorage".data, "ReplicatedStorage".data)
    , ("serverscriptservice".data, "ServerScriptService".data)
    , ("serverstorage".data, "ServerStorage".data)
    , ("starterplayer".data, "StarterPlayer".data)
    , ("startergui".data, "StarterGui".data)
    , ("lighting".data, "Lighting".data)
    , ("workspace".data, "Workspace".data)
    ] s

/-- The `resolveFromConventionAsSegments(fsPath)` from part_003: split the
workspace-relative path, strip extensions and role suffixes, drop `init`
segments, map the first segment through the service table (splicing in
dotted service names), and fall back to the bare file name when everything
collapsed. -/
def resolveFromConventionAsSegments
    (folders : List (List Char)) (fsPath : List Char) : List (List Char) :=
  match folders.find? (fun f => f.isPrefixOf fsPath) with
  | none => [getFileNameWithoutExtension fsPath]
  | some wf =>
      let relativePath := pathRelative wf fsPath
      let segments := splitOnChar '/' relativePath
      let processedSegments := segments.filterMap (fun seg =>
        let s := stripConvExt2 (stripConvExt1 seg)
        if lowerL s = "init".data then none else some s)
      let mapped :=
        match processedSegments with
        | [] => ([] : List (List Char))
        | first :: rest =>
            match serviceMapLookup (lowerL first) with
            | some m => if m.contains '.' then splitOnChar '.' m ++ rest else m :: rest
            | none => first :: rest
      if mapped = [] then [getFileNameWithoutExtension fsPath] else mapped

/-- The `resolveInstancePath(fsPath)` from part_003 with the cache elided and
the tree snapshots passed explicitly: sourcemap tier, then Rojo-project
tier, then convention fallback, each emitting
`'game' + segments.map(formatPathSegment).join('')`.  (The typed traversals
cannot throw; the catch branch of the source is modelled separately by
`resolveInstancePathTiers`.) -/
def resolveInstancePath
    (folders : List (List Char)) (smaps : List (List Char × Sourcemap))
    (projects : List (List Char × RojoProject)) (fsPath : List Char) : List Char :=
  let step3 := "game".data ++ buildSegPath (resolveFromConventionAsSegments folders fsPath)
  let step2 :=
    match resolveFromRojoProjectAsSegments folders projects fsPath with
    | some segs => if 0 < segs.length then ("game".data) ++ buildSegPath segs else step3
    | none => step3
  match resolveFromSourcemapAsSegments folders smaps fsPath with
  | some segs => if 0 < segs.length then ("game".data) ++ buildSegPath segs else step2
  | none => step2

/-- The catch branch of part_003 `resolveInstancePath`:
`'game' + formatPathSegment(path.basename(fsPath).replace(/\.(server|client)?\.luau$/i, ''))`. -/
def catchFallbackPath (fsPath : List Char) : List Char :=
  "game".data ++ formatPathSegment (stripRojoExt (pathBasename fsPath))

/-- The try/catch control flow of part_003 `resolveInstancePath`
(lines 161-198), with the three tier computations abstracted as outcomes:
`t1`/`t2` are the sourcemap and Rojo traversals (either an exception, or
`null`, or a segment list), `t3` the convention fallback.  All three run
inside one `try`; any exception jumps to the catch branch
(`catchFallbackPath`), and a `null`/empty tier result falls through to the
next tier. -/
def resolveInstancePathTiers
    (t1 t2 : Except Unit (Option (List (List Char))))
    (t3 : Except Unit (List (List Char))) (fsPath : List Char) : List Char :=
  match t1 with
  | .error _ => catchFallbackPath fsPath
  | .ok o1 =>
      let step1 :=
        match o1 with
        | some segs => if 0 < segs.length then some ("game".data ++ buildSegPath segs) else none
        | none => none
      match step1 with
      | some r => r
      | none =>
          match t2 with
          | .error _ => catchFallbackPath fsPath
          | .ok o2 =>
              let step2 :=
                match o2 with
                | some segs =>
                    if 0 < segs.length then some ("game".data ++ buildSegPath segs) else none
                | none => none
              match step2 with
              | some r => r
              | none =>
                  match t3 with
                  | .error _ => catchFallbackPath fsPath
                  | .ok segs => "game".data ++ buildSegPath segs

/-! ## src/pathResolver.ts (older resolver variant) -/

/-- The `searchSourcemapNode` of the older `src/pathResolver.ts`: same search
as part_003 but comparing without lower-casing (`/\.(lua|luau)$/`, no `i`
flag, applied to the target only) and returning the node names joined with
dots. -/
def oldSearchSourcemapNode
    (nodes : List SourcemapNode) (targetPath workspacePath : List Char)
    (pathSegments : List (List Char)) : Option (List Char) :=
  match nodes with
  | [] => none
  | SourcemapNode.mk name filePaths children :: rest =>
      let currentPath := pathSegments ++ [name]
      if filePaths.any (fun filePath =>
          let fullPath := normSlashes (pathJoin workspacePath filePath)
          fullPath = targetPath ∨ fullPath = oldStripExt targetPath)
      then some (joinDots currentPath)
      else
        match oldSearchSourcemapNode children targetPath workspacePath currentPath with
        | some r => some r
        | none => oldSearchSourcemapNode rest targetPath workspacePath pathSegments

/-- The `resolveFromSourcemap` of the older `src/pathResolver.ts`. -/
def oldResolveFromSourcemap
    (folders : List (List Char)) (smaps : List (List Char × Sourcemap))
    (fsPath : List Char) : Option (List Char) :=
  match folders.find? (fun f => f.isPrefixOf fsPath) with
  | none => none
  | some wf =>
      match lookupAssoc smaps wf with
      | none => none
      | some sm => oldSearchSourcemapNode sm.children (normSlashes fsPath) (normSlashes wf) []

/-- The `resolveFromConvention` of the older `src/pathResolver.ts`: strip the
extension from the last segment only, map the first folder through the
service table only when there are at least two segments (no dot-splicing),
and join everything with dots — no `game` prefix, no bracket formatting,
no `init` collapsing. -/
def oldResolveFromConvention (folders : List (List Char)) (fsPath : List Char) : List Char :=
  match folders.find? (fun f => f.isPrefixOf fsPath) with
  | none => oldStripExt (pathBasename fsPath)
  | some wf =>
      let relativePath := pathRelative wf fsPath
      let segments := splitOnChar '/' relativePath
      let segments' := segments.dropLast ++ [oldStripExt (segments.getLastD [])]
      let mapped :=
        match segments' with
        | first :: rest =>
            if rest ≠ [] then
              match serviceMapLookup (lowerL first) with
              | some m => m :: rest
              | none => first :: rest
            else segments'
        | [] => segments'
      joinDots mapped

/-- The `resolveInstancePath` of the older `src/pathResolver.ts` (cache
elided): sourcemap search, then the convention fallback. -/
def oldResolveInstancePath
    (folders : List (List Char)) (smaps : List (List Char × Sourcemap))
    (fsPath : List Char) : List Char :=
  match oldResolveFromSourcemap folders smaps fsPath with
  | some p => p
  | none => oldResolveFromConvention folders fsPath

/-! ## part_002 (`completionProvider.ts`, current version) -/

/-- The `DefinedVariable` from types.ts. -/
structure DefinedVariable where
  varName : List Char
  instancePath : List Char
  depth : ℕ
  lineIndex : ℕ
deriving DecidableEq

/-- The `pathStyle` configuration value. -/
inductive PathStyle where
  | auto | absolute | relative
deriving DecidableEq

/-- The configuration fields `buildRequirePath`/`getRelativePath` read. -/
structure BuildConfig where
  pathStyle : PathStyle
  useGetService : Bool

/-- The common-prefix loop of `getRelativePath`: the length of the longest
common prefix of the two segment lists (the loop sets `commonLength = i+1`
while segments agree and breaks at the first mismatch). -/
def commonPrefixLen : List (List Char) → List (List Char) → ℕ
  | x :: xs, y :: ys => if x = y then commonPrefixLen xs ys + 1 else 0
  | _, _ => 0

/-- The `getRelativePath(currentPath, targetPath)` from part_002: `script` plus
`parentsNeeded` `.Parent` accessors plus the remaining target segments, or
`null` when the path style forbids it, either path is not `game`-rooted,
fewer than two segments are shared, or more than 3 parents would be needed. -/
def getRelativePath (cfg : BuildConfig) (currentPath targetPath : List Char) :
    Option (List Char) :=
  if cfg.pathStyle = PathStyle.absolute then none
  else
    let currentParts := splitOnChar '.' currentPath
    let targetParts := splitOnChar '.' targetPath
    if ¬(currentParts.headD [] = "game".data ∧ targetParts.headD [] = "game".data) then none
    else
      let commonLength := commonPrefixLen currentParts targetParts
      if commonLength < 2 then none
      else
        let parentsNeeded := currentParts.length - commonLength
        let childrenNeeded := targetParts.drop commonLength
        if 3 < parentsNeeded then none
        else
          some ("script".data
            ++ (List.replicate parentsNeeded (".Parent".data)).flatten
            ++ (childrenNeeded.map (fun child =>
                  if isValidLuaIdentifier child then '.' :: child
                  else '[' :: '"' :: child ++ ['"', ']'])).flatten)

/-- The per-variable test of `findDeepestMatchingVariable`: the variable's
instance path is a lower-cased prefix of the target and the remainder of
the (original-case) target is empty or starts at a `.`/`[` boundary. -/
def variableMatches (instancePath : List Char) (v : DefinedVariable) : Bool :=
  (lowerL v.instancePath).isPrefixOf (lowerL instancePath)
    && (let remaining := instancePath.drop v.instancePath.length
        remaining = [] || remaining.headD ' ' = '.' || remaining.headD ' ' = '[')

/-- The `findDeepestMatchingVariable(instancePath, definedVariables)` from
part_002: the first variable in list order that matches (the caller passes
the list sorted by depth descending), with the remaining suffix. -/
def findDeepestMatchingVariable (instancePath : List Char) :
    List DefinedVariable → Option (List Char × List Char)
  | [] => none
  | v :: rest =>
      if variableMatches instancePath v
      then some (v.varName, instancePath.drop v.instancePath.length)
      else findDeepestMatchingVariable instancePath rest

/-- The regex `^game\.(\w+)(\..*)?$` of `buildRequirePath`: `some (service,
rest)` where `service` is the maximal `\w+` run after `game.` and `rest`
(possibly empty) starts with a dot. -/
def matchGameService (s : List Char) : Option (List Char × List Char) :=
  if ("game.".data).isPrefixOf s then
    let rest0 := s.drop 5
    let w := rest0.takeWhile (fun c => c.isAlphanum || c = '_')
    if w = [] then none
    else
      let rem := rest0.drop w.length
      if rem = [] ∨ rem.headD ' ' = '.' then some (w, rem) else none
  else none

/-- The `buildRequirePath(moduleInfo, definedServices, definedVariables,
currentScriptPath)` from part_002: deepest matching variable, then relative
path, then a declared service variable, then `game:GetService(...)` when
configured, then the absolute instance path. -/
def buildRequirePath (instancePath : List Char)
    (definedServices : List (List Char × List Char))
    (definedVariables : List DefinedVariable)
    (currentScriptPath : Option (List Char)) (cfg : BuildConfig) : List Char :=
  match findDeepestMatchingVariable instancePath definedVariables with
  | some (varName, remainingPath) => varName ++ remainingPath
  | none =>
      let afterRelative :=
        match matchGameService instancePath with
        | some (svc, rest) =>
            match lookupAssoc definedServices svc with
            | some varName => varName ++ rest
            | none =>
                if cfg.useGetService
                then ("game:GetService(\"".data) ++ svc ++ "\")".data ++ rest
                else instancePath
        | none => instancePath
      match currentScriptPath with
      | some cur =>
          if cfg.pathStyle ≠ PathStyle.absolute then
            match getRelativePath cfg cur instancePath with
            | some rp => rp
            | none => afterRelative
          else afterRelative
      | none => afterRelative

/-- Occurrences of a pattern in a char list (at any position). -/
def countSubpattern (pat : List Char) : List Char → ℕ
  | [] => 0
  | c :: rest => (if pat.isPrefixOf (c :: rest) then 1 else 0) + countSubpattern pat rest

/-- The number of `.Parent` accessors in a built reference expression. -/
def countParentHops (s : List Char) : ℕ := countSubpattern (".Parent".data) s

/-- A strict option set (all defaults except `minScore = 0.8`,
`allowVeryFuzzy` kept `true`): used to probe the very-fuzzy salvage branch
at a high threshold. -/
def strictVeryFuzzyOpts : FuzzyMatchOptions :=
  { defaultOptions with minScore := 8/10 }

/-! ## Lemmas about the keyboard-aware distance table -/

/-- The `kadAux` does not depend on the fuel, as long as there is enough of it. -/
lemma kadAux_fuel_eq (s t : List Char) :
    ∀ (f : ℕ) {e i j : ℕ}, i + j + 1 ≤ f → i + j + 1 ≤ e →
      kadAux s t f i j = kadAux s t e i j := by
  intro f
  induction f with
  | zero => intro e i j h _; omega
  | succ g IH =>
      intro e i j h h'
      obtain ⟨g', rfl⟩ : ∃ g'', e = g'' + 1 := ⟨e - 1, by omega⟩
      match i, j with
      | 0, j => rfl
      | i + 1, 0 => rfl
      | i + 1, j + 1 =>
          simp only [kadAux]
          rw [IH (e := g') (by omega) (by omega), IH (e := g') (by omega) (by omega),
            IH (e := g') (by omega) (by omega),
            IH (e := g') (i := i - 1) (j := j - 1) (by omega) (by omega)]

lemma KD_zero_left (s t : List Char) (j : ℕ) : KD s t 0 j = (j : ℚ) := rfl

lemma KD_zero_right (s t : List Char) (i : ℕ) : KD s t (i + 1) 0 = ((i : ℚ) + 1) := rfl

/-- The defining recurrence of `KD` in terms of itself. -/
lemma KD_succ_succ (s t : List Char) (i j : ℕ) :
    KD s t (i + 1) (j + 1) =
      if 1 ≤ i ∧ 1 ≤ j ∧ chAt s i = chAt t (j - 1) ∧ chAt s (i - 1) = chAt t j then
        min (min (KD s t i (j + 1) + 1)
              (min (KD s t (i + 1) j + 1)
                (KD s t i j + substCost (chAt s i) (chAt t j))))
          (KD s t (i - 1) (j - 1) + 1/2)
      else
        min (KD s t i (j + 1) + 1)
          (min (KD s t (i + 1) j + 1)
            (KD s t i j + substCost (chAt s i) (chAt t j))) := by
  have harith : (i + 1) + (j + 1) + 1 = (i + j + 2) + 1 := by omega
  show kadAux s t ((i + 1) + (j + 1) + 1) (i + 1) (j + 1) = _
  rw [harith]
  simp only [kadAux]
  rw [kadAux_fuel_eq s t _ (by omega) (by omega : i + (j + 1) + 1 ≤ i + (j + 1) + 1),
    kadAux_fuel_eq s t _ (by omega) (by omega : (i + 1) + j + 1 ≤ (i + 1) + j + 1),
    kadAux_fuel_eq s t _ (by omega) (by omega : i + j + 1 ≤ i + j + 1),
    kadAux_fuel_eq s t _ (by omega) (by omega : (i - 1) + (j - 1) + 1 ≤ (i - 1) + (j - 1) + 1)]
  rfl

lemma substCost_nonneg (a b : Char) : 0 ≤ substCost a b := by
  unfold substCost; split_ifs <;> norm_num

lemma substCost_le_one (a b : Char) : substCost a b ≤ 1 := by
  unfold substCost; split_ifs <;> norm_num

lemma substCost_of_eq {a b : Char} (h : a = b) : substCost a b = 0 := by
  unfold substCost; rw [if_pos h]

lemma substCost_of_ne {a b : Char} (h : a ≠ b) :
    substCost a b = 1/2 ∨ substCost a b = 1 := by
  unfold substCost; rw [if_neg h]; split_ifs <;> simp

lemma le_min3 {a b c L : ℚ} (ha : L ≤ a) (hb : L ≤ b) (hc : L ≤ c) :
    L ≤ min a (min b c) := le_min ha (le_min hb hc)

/-- Lower bounds on every `dp` entry when `s` and `t` (lower-cased) agree
everywhere except at position `p`: each entry dominates the index
difference in both directions, is nonnegative, and — once both indices
have passed the mismatch — dominates the mismatch's substitution cost. -/
lemma KD_lower (s t : List Char) (p : ℕ)
    (hmis : ∀ k, k ≠ p → chAt s k = chAt t k) (hne : chAt s p ≠ chAt t p) :
    ∀ m i j : ℕ, i + j ≤ m →
      ((i : ℚ) - (j : ℚ) ≤ KD s t i j) ∧ ((j : ℚ) - (i : ℚ) ≤ KD s t i j) ∧
      (0 ≤ KD s t i j) ∧
      (p < i → p < j → substCost (chAt s p) (chAt t p) ≤ KD s t i j) := by
  intro m
  induction m with
  | zero =>
      intro i j hij
      have hi : i = 0 := by omega
      have hj : j = 0 := by omega
      subst hi; subst hj
      rw [KD_zero_left]
      exact ⟨by norm_num, by norm_num, by norm_num,
        fun h _ => absurd h (Nat.not_lt_zero p)⟩
  | succ m IH =>
      intro i j hij
      match i, j with
      | 0, j =>
          rw [KD_zero_left]
          have h0 : (0 : ℚ) ≤ (j : ℚ) := Nat.cast_nonneg j
          exact ⟨by push_cast; linarith, by linarith, h0,
            fun h _ => absurd h (Nat.not_lt_zero p)⟩
      | i + 1, 0 =>
          rw [KD_zero_right]
          have h0 : (0 : ℚ) ≤ (i : ℚ) := Nat.cast_nonneg i
          exact ⟨by push_cast; linarith, by push_cast; linarith, by linarith,
            fun _ h => absurd h (Nat.not_lt_zero p)⟩
      | i + 1, j + 1 =>
          have IH1 := IH i (j + 1) (by omega)
          have IH2 := IH (i + 1) j (by omega)
          have IH3 := IH i j (by omega)
          have IH4 := IH (i - 1) (j - 1) (by omega)
          rw [KD_succ_succ]
          have hc0 := substCost_nonneg (chAt s i) (chAt t j)
          have hcp1 := substCost_le_one (chAt s p) (chAt t p)
          have hcp0 := substCost_nonneg (chAt s p) (chAt t p)
          push_cast at IH1 IH2 IH3
          refine ⟨?_, ?_, ?_, ?_⟩
          · split_ifs with hT
            · have ci : ((i - 1 : ℕ) : ℚ) = (i : ℚ) - 1 := by
                rw [Nat.cast_sub hT.1]; norm_num
              have cj : ((j - 1 : ℕ) : ℚ) = (j : ℚ) - 1 := by
                rw [Nat.cast_sub hT.2.1]; norm_num
              refine le_min (le_min3 ?_ ?_ ?_) ?_
              · push_cast; linarith [IH1.1]
              · push_cast; linarith [IH2.1]
              · push_cast; linarith [IH3.1]
              · push_cast; rw [ci, cj] at IH4; linarith [IH4.1]
            · refine le_min3 ?_ ?_ ?_
              · push_cast; linarith [IH1.1]
              · push_cast; linarith [IH2.1]
              · push_cast; linarith [IH3.1]
          · split_ifs with hT
            · have ci : ((i - 1 : ℕ) : ℚ) = (i : ℚ) - 1 := by
                rw [Nat.cast_sub hT.1]; norm_num
              have cj : ((j - 1 : ℕ) : ℚ) = (j : ℚ) - 1 := by
                rw [Nat.cast_sub hT.2.1]; norm_num
              refine le_min (le_min3 ?_ ?_ ?_) ?_
              · push_cast; linarith [IH1.2.1]
              · push_cast; linarith [IH2.2.1]
              · push_cast; linarith [IH3.2.1]
              · push_cast; rw [ci, cj] at IH4; linarith [IH4.2.1]
            · refine le_min3 ?_ ?_ ?_
              · push_cast; linarith [IH1.2.1]
              · push_cast; linarith [IH2.2.1]
              · push_cast; linarith [IH3.2.1]
          · split_ifs with hT
            · refine le_min (le_min3 ?_ ?_ ?_) ?_
              · linarith [IH1.2.2.1]
              · linarith [IH2.2.2.1]
              · linarith [IH3.2.2.1]
              · linarith [IH4.2.2.1]
            · refine le_min3 ?_ ?_ ?_
              · linarith [IH1.2.2.1]
              · linarith [IH2.2.2.1]
              · linarith [IH3.2.2.1]
          · intro hpi hpj
            have hsub : substCost (chAt s p) (chAt t p) ≤ KD s t i j
                + substCost (chAt s i) (chAt t j) := by
              by_cases hpi' : p < i
              · by_cases hpj' : p < j
                · linarith [IH3.2.2.2 hpi' hpj']
                · have hpj2 : p = j := by omega
                  have hij2 : (j : ℚ) + 1 ≤ (i : ℚ) := by exact_mod_cast (by omega : j + 1 ≤ i)
                  linarith [IH3.1]
              · by_cases hpj' : p < j
                · have hpi2 : p = i := by omega
                  have hij2 : (i : ℚ) + 1 ≤ (j : ℚ) := by exact_mod_cast (by omega : i + 1 ≤ j)
                  linarith [IH3.2.1]
                · have hpi2 : p = i := by omega
                  have hpj2 : p = j := by omega
                  have e1 : chAt s i = chAt s p := by rw [hpi2]
                  have e2 : chAt t j = chAt t p := by rw [hpj2]
                  rw [e1, e2]
                  linarith [IH3.2.2.1]
            split_ifs with hT
            · refine le_min (le_min3 ?_ ?_ ?_) ?_
              · linarith [IH1.2.2.1]
              · linarith [IH2.2.2.1]
              · exact hsub
              · -- transposition option: cost 1/2; impossible to be cheaper than the
                -- mismatch when the mismatch sits at one of the two swapped positions
                rcases substCost_of_ne hne with hc2 | hc2
                · rw [hc2]; linarith [IH4.2.2.1]
                · rw [hc2]
                  obtain ⟨h1i, h1j, hT3, hT4⟩ := hT
                  have ci : ((i - 1 : ℕ) : ℚ) = (i : ℚ) - 1 := by
                    rw [Nat.cast_sub h1i]; norm_num
                  have cj : ((j - 1 : ℕ) : ℚ) = (j : ℚ) - 1 := by
                    rw [Nat.cast_sub h1j]; norm_num
                  by_cases hij2 : i = j
                  · subst hij2
                    by_cases hp4 : p < i - 1
                    · have := IH4.2.2.2 hp4 hp4
                      rw [hc2] at this; linarith
                    · exfalso
                      apply hne
                      by_cases hp5 : p = i
                      · have h6 : i - 1 ≠ p := by omega
                        have h7 := hmis (i - 1) h6
                        rw [hp5]
                        calc chAt s i = chAt t (i - 1) := hT3
                          _ = chAt s (i - 1) := h7.symm
                          _ = chAt t i := hT4
                      · have hp6 : p = i - 1 := by omega
                        have h7 := hmis i (by omega)
                        rw [hp6]
                        calc chAt s (i - 1) = chAt t i := hT4
                          _ = chAt s i := h7.symm
                          _ = chAt t (i - 1) := hT3
                  · by_cases hij3 : i < j
                    · have : (i : ℚ) + 1 ≤ (j : ℚ) := by exact_mod_cast (by omega : i + 1 ≤ j)
                      have h8 := IH4.2.1
                      rw [ci, cj] at h8
                      linarith
                    · have : (j : ℚ) + 1 ≤ (i : ℚ) := by exact_mod_cast (by omega : j + 1 ≤ i)
                      have h8 := IH4.1
                      rw [ci, cj] at h8
                      linarith
            · refine le_min3 ?_ ?_ ?_
              · linarith [IH1.2.2.1]
              · linarith [IH2.2.2.1]
              · exact hsub

/-- Upper bound on the diagonal `dp` entries when `s` and `t` (lower-cased)
agree everywhere except at position `p`: following the diagonal, the only
cost incurred is the mismatch's substitution cost. -/
lemma KD_le_diag (s t : List Char) (p : ℕ)
    (hmis : ∀ k, k ≠ p → chAt s k = chAt t k) :
    ∀ i, KD s t i i ≤ (if p < i then substCost (chAt s p) (chAt t p) else 0) := by
  intro i
  induction i with
  | zero =>
      rw [if_neg (Nat.not_lt_zero p)]
      exact le_of_eq (KD_zero_left s t 0)
  | succ i IH =>
      have step : KD s t (i + 1) (i + 1) ≤ KD s t i i + substCost (chAt s i) (chAt t i) := by
        rw [KD_succ_succ]
        split_ifs with hT
        · exact le_trans (min_le_left _ _)
            (le_trans (min_le_right _ _) (min_le_right _ _))
        · exact le_trans (min_le_right _ _) (min_le_right _ _)
      by_cases hpi : p < i + 1
      · rw [if_pos hpi]
        by_cases hpi2 : p < i
        · have hcost : substCost (chAt s i) (chAt t i) = 0 :=
            substCost_of_eq (hmis i (by omega))
          rw [if_pos hpi2] at IH
          linarith
        · have hpe : p = i := by omega
          rw [if_neg hpi2] at IH
          have e1 : chAt s i = chAt s p := by rw [hpe]
          have e2 : chAt t i = chAt t p := by rw [hpe]
          rw [e1, e2] at step
          linarith
      · rw [if_neg hpi]
        have hcost : substCost (chAt s i) (chAt t i) = 0 :=
          substCost_of_eq (hmis i (by omega))
        rw [if_neg (by omega : ¬ p < i)] at IH
        linarith

/-- When two equal-length strings differ (lower-cased) at exactly one
position, the keyboard-aware distance is exactly the substitution cost of
that position: 0.5 for a keyboard-adjacent pair, 1 otherwise. -/
lemma keyboardAwareDistance_single_mismatch (s t : List Char) (p n : ℕ)
    (hs : s.length = n) (ht : t.length = n) (hp : p < n)
    (hmis : ∀ k, k ≠ p → chAt s k = chAt t k) (hne : chAt s p ≠ chAt t p) :
    keyboardAwareDistance s t = substCost (chAt s p) (chAt t p) := by
  unfold keyboardAwareDistance
  rw [hs, ht]
  refine le_antisymm ?_ ?_
  · have h := KD_le_diag s t p hmis n
    rwa [if_pos hp] at h
  · exact (KD_lower s t p hmis hne (n + n) n n (le_refl _)).2.2.2 hp hp

/-- Positions at or beyond the (equal) length of both strings never witness
a mismatch, so a position-bounded mismatch hypothesis extends to all `k`. -/
lemma chAt_mismatch_extend {s t : List Char} {n p : ℕ}
    (hs : s.length = n) (ht : t.length = n)
    (hmis : ∀ k, k < n → k ≠ p → chAt s k = chAt t k) :
    ∀ k, k ≠ p → chAt s k = chAt t k := by
  intro k hk
  by_cases h : k < n
  · exact hmis k h hk
  · unfold chAt
    rw [List.getD_eq_default _ _ (by omega : s.length ≤ k),
      List.getD_eq_default _ _ (by omega : t.length ≤ k)]

/-- C4: For two targets of equal length `n`, each differing from the query
by exactly one single-character substitution (at positions `p1` resp. `p2`,
compared lower-cased as the algorithm does), where the first substituted
pair is adjacent on the keyboard-adjacency table and the second is not, the
keyboard-aware edit distances are exactly 0.5 and 1, and the adjacent-key
variant's similarity `1 − distance/maxLength` is strictly higher. -/
theorem keyboard_adjacent_substitution_scores_higher
    (q t1 t2 : List Char) (n p1 p2 : ℕ)
    (hq : q.length = n) (h1 : t1.length = n) (h2 : t2.length = n)
    (hp1 : p1 < n) (hp2 : p2 < n)
    (m1 : ∀ k, k < n → k ≠ p1 → chAt q k = chAt t1 k)
    (d1 : chAt q p1 ≠ chAt t1 p1)
    (a1 : areKeysAdjacent (chAt q p1) (chAt t1 p1) = true)
    (m2 : ∀ k, k < n → k ≠ p2 → chAt q k = chAt t2 k)
    (d2 : chAt q p2 ≠ chAt t2 p2)
    (a2 : areKeysAdjacent (chAt q p2) (chAt t2 p2) = false) :
    keyboardAwareDistance q t1 = 1/2 ∧ keyboardAwareDistance q t2 = 1 ∧
      1 - keyboardAwareDistance q t2 / ((max q.length t2.length : ℕ) : ℚ) <
        1 - keyboardAwareDistance q t1 / ((max q.length t1.length : ℕ) : ℚ) := by
  have c1 : substCost (chAt q p1) (chAt t1 p1) = 1/2 := by
    unfold substCost; rw [if_neg d1, if_pos a1]
  have c2 : substCost (chAt q p2) (chAt t2 p2) = 1 := by
    unfold substCost; rw [if_neg d2, if_neg (by simp [a2])]
  have e1 : keyboardAwareDistance q t1 = 1/2 := by
    rw [keyboardAwareDistance_single_mismatch q t1 p1 n hq h1 hp1
      (chAt_mismatch_extend hq h1 m1) d1, c1]
  have e2 : keyboardAwareDistance q t2 = 1 := by
    rw [keyboardAwareDistance_single_mismatch q t2 p2 n hq h2 hp2
      (chAt_mismatch_extend hq h2 m2) d2, c2]
  refine ⟨e1, e2, ?_⟩
  rw [e1, e2, hq, h1, h2, max_self]
  have hn : (0 : ℚ) < (n : ℚ) := by exact_mod_cast (by omega : 0 < n)
  have hlt : (1 : ℚ)/2 / (n : ℚ) < 1 / (n : ℚ) :=
    (div_lt_div_iff_of_pos_right hn).mpr (by norm_num)
  linarith

/-- Witness for C4: query `"ab"`, adjacent-substitution target `"sb"`
(`a`/`s` are neighbours), non-adjacent target `"pb"`. -/
theorem keyboard_adjacent_substitution_scores_higher_witness :
    keyboardAwareDistance ("ab".data) ("sb".data) = 1/2 ∧
      keyboardAwareDistance ("ab".data) ("pb".data) = 1 ∧
      1 - keyboardAwareDistance ("ab".data) ("pb".data)
          / ((max ("ab".data).length ("pb".data).length : ℕ) : ℚ) <
        1 - keyboardAwareDistance ("ab".data) ("sb".data)
          / ((max ("ab".data).length ("sb".data).length : ℕ) : ℚ) :=
  keyboard_adjacent_substitution_scores_higher ("ab".data) ("sb".data) ("pb".data) 2 0 0
    rfl rfl rfl (by norm_num) (by norm_num)
    (by decide) (by decide) (by decide) (by decide) (by decide) (by decide)

/-- A proximity lookup either misses (yielding `[]`) or returns the entry
stored under the key. -/
lemma proxGet_mem : ∀ (l : List (Char × List Char)) (c : Char),
    proxGet l c = [] ∨ (c, proxGet l c) ∈ l := by
  intro l
  induction l with
  | nil => intro c; exact Or.inl rfl
  | cons kv rest IH =>
      intro c
      obtain ⟨k, v⟩ := kv
      by_cases h : c = k
      · subst h
        right
        simp [proxGet]
      · rcases IH c with h2 | h2
        · left; simpa [proxGet, h] using h2
        · right
          simp only [proxGet, if_neg h]
          exact List.mem_cons_of_mem _ h2

/-- The keyboard proximity table is symmetric: every listed neighbour lists
the key back (checked by computation on the concrete table). -/
lemma proxTable_symm :
    keyboardProximityList.all
      (fun pr => pr.2.all (fun c => (proxGet keyboardProximityList c).contains pr.1)) = true := by
  decide

lemma adjRaw_imp (x y : Char) :
    (proxGet keyboardProximityList x).contains y = true →
    (proxGet keyboardProximityList y).contains x = true := by
  intro h
  rcases proxGet_mem keyboardProximityList x with hx | hx
  · rw [hx] at h; simp at h
  · have F := proxTable_symm
    rw [List.all_eq_true] at F
    have F2 := F _ hx
    rw [List.all_eq_true] at F2
    have hmem : y ∈ proxGet keyboardProximityList x :=
      List.mem_of_elem_eq_true h
    simpa using F2 y hmem

lemma adjRaw_symm (x y : Char) :
    (proxGet keyboardProximityList x).contains y
      = (proxGet keyboardProximityList y).contains x := by
  cases h1 : (proxGet keyboardProximityList x).contains y
  · cases h2 : (proxGet keyboardProximityList y).contains x
    · rfl
    · rw [adjRaw_imp y x h2] at h1; exact h1.symm
  · exact (adjRaw_imp x y h1).symm

/-- The adjacency test of the fuzzy matcher is symmetric. -/
lemma areKeysAdjacent_symm (a b : Char) : areKeysAdjacent a b = areKeysAdjacent b a :=
  adjRaw_symm a.toLower b.toLower

/-- The substitution cost of `keyboardAwareDistance` is symmetric. -/
lemma substCost_symm (a b : Char) : substCost a b = substCost b a := by
  unfold substCost
  by_cases h : a = b
  · rw [if_pos h, if_pos h.symm]
  · rw [if_neg h, if_neg (Ne.symm h), areKeysAdjacent_symm]

/-- Every `dp` entry is symmetric under swapping the two strings (and the
two indices). -/
lemma KD_symm (s t : List Char) : ∀ m i j : ℕ, i + j ≤ m → KD s t i j = KD t s j i := by
  intro m
  induction m with
  | zero =>
      intro i j hij
      have hi : i = 0 := by omega
      have hj : j = 0 := by omega
      subst hi; subst hj; rfl
  | succ m IH =>
      intro i j hij
      match i, j with
      | 0, 0 => rfl
      | 0, j + 1 => rw [KD_zero_left, KD_zero_right]; push_cast; ring
      | i + 1, 0 => rw [KD_zero_left, KD_zero_right]; push_cast; ring
      | i + 1, j + 1 =>
          have h1 := IH i (j + 1) (by omega)
          have h2 := IH (i + 1) j (by omega)
          have h3 := IH i j (by omega)
          have h4 := IH (i - 1) (j - 1) (by omega)
          have hcost := substCost_symm (chAt s i) (chAt t j)
          have hcond : (1 ≤ i ∧ 1 ≤ j ∧ chAt s i = chAt t (j - 1) ∧ chAt s (i - 1) = chAt t j)
              ↔ (1 ≤ j ∧ 1 ≤ i ∧ chAt t j = chAt s (i - 1) ∧ chAt t (j - 1) = chAt s i) := by
            constructor
            · rintro ⟨a, b, c, d⟩; exact ⟨b, a, d.symm, c.symm⟩
            · rintro ⟨a, b, c, d⟩; exact ⟨b, a, d.symm, c.symm⟩
          rw [KD_succ_succ s t i j, KD_succ_succ t s j i]
          by_cases hc1 : 1 ≤ i ∧ 1 ≤ j ∧ chAt s i = chAt t (j - 1) ∧ chAt s (i - 1) = chAt t j
          · rw [if_pos hc1, if_pos (hcond.mp hc1), ← h1, ← h2, ← h3, ← h4, ← hcost]
            congr 1
            exact min_left_comm _ _ _
          · rw [if_neg hc1, if_neg (fun h => hc1 (hcond.mpr h)), ← h1, ← h2, ← h3, ← hcost]
            exact min_left_comm _ _ _

/-- C10: `keyboardAwareDistance` is symmetric, and so are the adjacency
table lookup and the substitution cost it uses. -/
theorem keyboardAwareDistance_symmetric :
    (∀ a b : Char, areKeysAdjacent a b = areKeysAdjacent b a) ∧
    (∀ a b : Char, substCost a b = substCost b a) ∧
    (∀ s t : List Char, keyboardAwareDistance s t = keyboardAwareDistance t s) :=
  ⟨areKeysAdjacent_symm, substCost_symm, fun s t =>
    KD_symm s t (s.length + t.length) s.length t.length (le_refl _)⟩

/-! ## Lemmas about the ranking engine -/

lemma mem_insertDesc {T : Type} (x z : RankedMatch T) :
    ∀ l : List (RankedMatch T), z ∈ insertDesc x l ↔ z = x ∨ z ∈ l := by
  intro l
  induction l with
  | nil => simp [insertDesc]
  | cons y ys IH =>
      simp only [insertDesc]
      split_ifs with hxy
      · simp [List.mem_cons]
      · simp only [List.mem_cons, IH]
        tauto

lemma insertDesc_pairwise {T : Type} (x : RankedMatch T) :
    ∀ l : List (RankedMatch T),
      l.Pairwise (fun a b => b.score ≤ a.score) →
      (insertDesc x l).Pairwise (fun a b => b.score ≤ a.score) := by
  intro l
  induction l with
  | nil => intro _; simp [insertDesc]
  | cons y ys IH =>
      intro h
      rw [List.pairwise_cons] at h
      simp only [insertDesc]
      split_ifs with hxy
      · rw [List.pairwise_cons]
        refine ⟨?_, List.pairwise_cons.mpr h⟩
        intro z hz
        rcases List.mem_cons.mp hz with hz | hz
        · subst hz; exact hxy
        · exact le_trans (h.1 z hz) hxy
      · rw [List.pairwise_cons]
        refine ⟨?_, IH h.2⟩
        intro z hz
        rcases (mem_insertDesc x z ys).mp hz with hz | hz
        · subst hz; exact le_of_not_le hxy
        · exact h.1 z hz

lemma filter_score_insertDesc {T : Type} (x : RankedMatch T) (s : ℚ) :
    ∀ l : List (RankedMatch T),
      (insertDesc x l).filter (fun r => decide (r.score = s))
        = ((x :: l).filter (fun r => decide (r.score = s))) := by
  intro l
  induction l with
  | nil => rfl
  | cons y ys IH =>
      by_cases hxy : y.score ≤ x.score
      · simp only [insertDesc, if_pos hxy]
      · simp only [insertDesc, if_neg hxy]
        by_cases hy : y.score = s <;> by_cases hx : x.score = s
        · exact absurd (le_of_eq (hy.trans hx.symm)) hxy
        · simp [List.filter_cons, hy, hx, IH]
        · simp [List.filter_cons, hy, hx, IH]
        · simp [List.filter_cons, hy, hx, IH]

lemma sortByScoreDesc_pairwise {T : Type} (l : List (RankedMatch T)) :
    (sortByScoreDesc l).Pairwise (fun a b => b.score ≤ a.score) := by
  induction l with
  | nil => simp [sortByScoreDesc]
  | cons x xs IH => exact insertDesc_pairwise x _ IH

lemma sortByScoreDesc_filter_score {T : Type} (l : List (RankedMatch T)) (s : ℚ) :
    (sortByScoreDesc l).filter (fun r => decide (r.score = s))
      = l.filter (fun r => decide (r.score = s)) := by
  induction l with
  | nil => rfl
  | cons x xs IH =>
      show (insertDesc x (sortByScoreDesc xs)).filter _ = _
      rw [filter_score_insertDesc, List.filter_cons, List.filter_cons, IH]

/-- C8: `rankMatches` returns a list sorted by score descending, and it is
stable: for every score value, the retained candidates with that score
appear in exactly their original input order (the order produced by the
collection loop over `items`). -/
theorem rankMatches_sorted_and_stable {T : Type} (query : List Char) (items : List T)
    (getSearchText : T → List (List Char)) (opts : FuzzyMatchOptions) :
    (rankMatches query items getSearchText opts).Pairwise (fun a b => b.score ≤ a.score) ∧
    ∀ s : ℚ,
      (rankMatches query items getSearchText opts).filter (fun r => decide (r.score = s))
        = (collectMatches query items getSearchText opts).filter
            (fun r => decide (r.score = s)) :=
  ⟨sortByScoreDesc_pairwise _, fun s => sortByScoreDesc_filter_score _ s⟩

/-! ## Lemmas about the fuzzy score range -/

lemma isPrefixOf_length_le : ∀ (l1 l2 : List Char),
    l1.isPrefixOf l2 = true → l1.length ≤ l2.length := by
  intro l1
  induction l1 with
  | nil => intro l2 _; simp
  | cons a l1 IH =>
      intro l2 h
      cases l2 with
      | nil => simp [List.isPrefixOf] at h
      | cons b l2 =>
          simp only [List.isPrefixOf, Bool.and_eq_true] at h
          simpa using IH l2 h.2

lemma characterFrequencySimilarity_mem (s1 s2 : List Char) :
    0 ≤ characterFrequencySimilarity s1 s2 ∧ characterFrequencySimilarity s1 s2 ≤ 1 := by
  unfold characterFrequencySimilarity
  have hcommon : ((lowerL s1).dedup.map
      (fun c => min ((lowerL s1).count c) ((lowerL s2).count c))).sum ≤ (lowerL s1).length := by
    calc ((lowerL s1).dedup.map
          (fun c => min ((lowerL s1).count c) ((lowerL s2).count c))).sum
        ≤ ((lowerL s1).dedup.map (fun c => (lowerL s1).count c)).sum :=
          List.sum_le_sum (fun i _ => min_le_left _ _)
      _ = (lowerL s1).length := List.sum_map_count_dedup_eq_length (lowerL s1)
  dsimp only
  split_ifs with h
  · exact ⟨by norm_num, le_refl 1⟩
  · have hpos : (0 : ℚ) < (max (lowerL s1).length (lowerL s2).length : ℕ) := by
      exact_mod_cast Nat.pos_of_ne_zero h
    refine ⟨by positivity, ?_⟩
    rw [div_le_one hpos]
    exact_mod_cast le_trans hcommon (le_max_left _ _)

lemma combinedScore_mem (ql tl : List Char) (opts : FuzzyMatchOptions) :
    0 ≤ combinedScore ql tl opts ∧ combinedScore ql tl opts ≤ 1 := by
  unfold combinedScore
  dsimp only
  exact ⟨le_min (by norm_num) (le_max_left _ _), min_le_left _ _⟩

/-- C9: on every branch of `fuzzyMatch` — empty query, exact, prefix,
substring, the clamped combined weighted score, and the very-fuzzy salvage —
the returned score lies in the closed interval [0, 1]. -/
theorem fuzzyMatch_score_in_unit_interval (query target : List Char)
    (opts : FuzzyMatchOptions) :
    0 ≤ (fuzzyMatch query target opts).score ∧ (fuzzyMatch query target opts).score ≤ 1 := by
  unfold fuzzyMatch
  dsimp only
  split_ifs with h0 h1 h2 h3 h4
  · exact ⟨by norm_num, by norm_num⟩
  · exact ⟨by norm_num, by norm_num⟩
  · -- prefix branch
    have hle : (lowerL query).length ≤ (lowerL target).length :=
      isPrefixOf_length_le _ _ h2
    have hq0 : 0 < (lowerL query).length := Nat.pos_of_ne_zero h0
    have ht0 : (0 : ℚ) < ((lowerL target).length : ℚ) := by
      exact_mod_cast lt_of_lt_of_le hq0 hle
    have hr1 : ((lowerL query).length : ℚ) / ((lowerL target).length : ℚ) ≤ 1 := by
      rw [div_le_one ht0]; exact_mod_cast hle
    have hr0 : 0 ≤ ((lowerL query).length : ℚ) / ((lowerL target).length : ℚ) := by positivity
    exact ⟨by linarith, by linarith⟩
  · -- substring branch
    have hle : (lowerL query).length ≤ (lowerL target).length := h3.length_le
    have hq0 : 0 < (lowerL query).length := Nat.pos_of_ne_zero h0
    have ht0 : (0 : ℚ) < ((lowerL target).length : ℚ) := by
      exact_mod_cast lt_of_lt_of_le hq0 hle
    have hr1 : ((lowerL query).length : ℚ) / ((lowerL target).length : ℚ) ≤ 1 := by
      rw [div_le_one ht0]; exact_mod_cast hle
    have hr0 : 0 ≤ ((lowerL query).length : ℚ) / ((lowerL target).length : ℚ) := by positivity
    exact ⟨by linarith, by linarith⟩
  · -- salvage branch
    obtain ⟨hc0, hc1⟩ := combinedScore_mem (lowerL query) (lowerL target) opts
    obtain ⟨hf0, hf1⟩ := characterFrequencySimilarity_mem (lowerL query) (lowerL target)
    exact ⟨le_trans hc0 (le_max_left _ _), max_le hc1 (by linarith)⟩
  all_goals exact combinedScore_mem (lowerL query) (lowerL target) opts

/-! ## The very-fuzzy salvage branch -/

/-- When the salvage branch of `fuzzyMatch` fires (no fast-path tier applies,
`allowVeryFuzzy` is on, frequency similarity is at least 0.7 and the clamped
combined score is below `minScore`), the result is fully determined: the
score is raised to `max(score, freq * 0.5)`, the tier is forced to `fuzzy`,
and `isMatch` re-compares the *raised* score against `minScore`. -/
lemma fuzzyMatch_salvage_eval (query target : List Char) (opts : FuzzyMatchOptions)
    (h0 : ¬ (lowerL query).length = 0)
    (h1 : ¬ lowerL query = lowerL target)
    (h2 : ¬ (lowerL query).isPrefixOf (lowerL target) = true)
    (h3 : ¬ (lowerL query <:+: lowerL target))
    (hvf : opts.allowVeryFuzzy = true)
    (hfreq : 7/10 ≤ characterFrequencySimilarity (lowerL query) (lowerL target))
    (hlow : combinedScore (lowerL query) (lowerL target) opts < opts.minScore) :
    fuzzyMatch query target opts =
      { score := max (combinedScore (lowerL query) (lowerL target) opts)
          (characterFrequencySimilarity (lowerL query) (lowerL target) * (1/2))
      , isMatch := decide (opts.minScore ≤
          max (combinedScore (lowerL query) (lowerL target) opts)
            (characterFrequencySimilarity (lowerL query) (lowerL target) * (1/2)))
      , matchType := MatchType.fuzzy } := by
  unfold fuzzyMatch
  dsimp only
  rw [if_neg h0, if_neg h1, if_neg h2, if_neg h3, if_pos ⟨hvf, hfreq, hlow⟩]

/-- C3 (amended): with `allowVeryFuzzy` on, frequency similarity ≥ 0.7 and
the combined score below `minScore`, `fuzzyMatch` raises the score to
`max(score, frequency × 0.5)` and forces tier `fuzzy`; but `isMatch` is true
exactly when the *raised* score reaches `minScore` (which is guaranteed
whenever `minScore ≤ 0.35`, in particular for the default 0.3 — not for
arbitrary `minScore`). -/
theorem fuzzyMatch_very_fuzzy_salvage (query target : List Char) (opts : FuzzyMatchOptions)
    (h0 : ¬ (lowerL query).length = 0)
    (h1 : ¬ lowerL query = lowerL target)
    (h2 : ¬ (lowerL query).isPrefixOf (lowerL target) = true)
    (h3 : ¬ (lowerL query <:+: lowerL target))
    (hvf : opts.allowVeryFuzzy = true)
    (hfreq : 7/10 ≤ characterFrequencySimilarity (lowerL query) (lowerL target))
    (hlow : combinedScore (lowerL query) (lowerL target) opts < opts.minScore) :
    (fuzzyMatch query target opts).score
        = max (combinedScore (lowerL query) (lowerL target) opts)
            (characterFrequencySimilarity (lowerL query) (lowerL target) * (1/2)) ∧
    (fuzzyMatch query target opts).matchType = MatchType.fuzzy ∧
    ((fuzzyMatch query target opts).isMatch = true ↔
      opts.minScore ≤ max (combinedScore (lowerL query) (lowerL target) opts)
        (characterFrequencySimilarity (lowerL query) (lowerL target) * (1/2))) ∧
    (opts.minScore ≤ 7/20 → (fuzzyMatch query target opts).isMatch = true) := by
  rw [fuzzyMatch_salvage_eval query target opts h0 h1 h2 h3 hvf hfreq hlow]
  refine ⟨rfl, rfl, decide_eq_true_iff, ?_⟩
  intro hms
  apply decide_eq_true
  have hhalf : 7/20 ≤ characterFrequencySimilarity (lowerL query) (lowerL target) * (1/2) := by
    linarith
  exact le_trans hms (le_trans hhalf (le_max_right _ _))

lemma lowerL_ab : lowerL ("ab".data) = "ab".data := by decide

lemma lowerL_ba : lowerL ("ba".data) = "ba".data := by decide

/-- The keyboard-aware distance of `"ab"` and `"ba"` is 0.5 (one cheap
adjacent transposition). -/
lemma kad_ab_ba : keyboardAwareDistance ("ab".data) ("ba".data) = 1/2 := by
  have k00 : KD ("ab".data) ("ba".data) 0 0 = 0 := by rw [KD_zero_left]; norm_num
  have k01 : KD ("ab".data) ("ba".data) 0 1 = 1 := by rw [KD_zero_left]; norm_num
  have k02 : KD ("ab".data) ("ba".data) 0 2 = 2 := by rw [KD_zero_left]; norm_num
  have k10 : KD ("ab".data) ("ba".data) 1 0 = 1 := by rw [KD_zero_right]; norm_num
  have k20 : KD ("ab".data) ("ba".data) 2 0 = 2 := by rw [KD_zero_right]; norm_num
  have s00 : substCost (chAt ("ab".data) 0) (chAt ("ba".data) 0) = 1 := by
    unfold substCost
    rw [if_neg (by decide), if_neg (by decide)]
  have s01 : substCost (chAt ("ab".data) 0) (chAt ("ba".data) 1) = 0 := by
    unfold substCost
    rw [if_pos (by decide)]
  have s10 : substCost (chAt ("ab".data) 1) (chAt ("ba".data) 0) = 0 := by
    unfold substCost
    rw [if_pos (by decide)]
  have s11 : substCost (chAt ("ab".data) 1) (chAt ("ba".data) 1) = 1 := by
    unfold substCost
    rw [if_neg (by decide), if_neg (by decide)]
  have k11 : KD ("ab".data) ("ba".data) 1 1 = 1 := by
    rw [KD_succ_succ, if_neg (by decide), k01, k10, k00, s00]
    norm_num [min_def]
  have k12 : KD ("ab".data) ("ba".data) 1 2 = 1 := by
    rw [KD_succ_succ, if_neg (by decide), k02, k11, k01, s01]
    norm_num [min_def]
  have k21 : KD ("ab".data) ("ba".data) 2 1 = 1 := by
    rw [KD_succ_succ, if_neg (by decide), k11, k20, k10, s10]
    norm_num [min_def]
  have k22 : KD ("ab".data) ("ba".data) 2 2 = 1/2 := by
    rw [KD_succ_succ, if_pos (by decide), k12, k21, k11, s11, k00]
    norm_num [min_def]
  exact k22

lemma freq_ab_ba : characterFrequencySimilarity ("ab".data) ("ba".data) = 1 := by
  unfold characterFrequencySimilarity
  dsimp only
  rw [show ((lowerL ("ab".data)).dedup.map
      (fun c => min ((lowerL ("ab".data)).count c) ((lowerL ("ba".data)).count c))).sum = 2
    from by decide]
  rw [show max (lowerL ("ab".data)).length (lowerL ("ba".data)).length = 2 from by decide]
  norm_num

lemma subseqScore_ab_ba : subsequenceScoreOf ("ab".data) ("ba".data) = 1/2 := by
  unfold subsequenceScoreOf
  rw [show (subsequenceMatch ("ab".data) ("ba".data)).1 = 1 from by decide,
    show ("ab".data).length = 2 from by decide]
  norm_num

/-- The clamped combined weighted score of `"ab"` against `"ba"` under the
default weights is 0.725. -/
lemma combined_ab_ba : combinedScore (lowerL ("ab".data)) (lowerL ("ba".data))
    strictVeryFuzzyOpts = 29/40 := by
  rw [lowerL_ab, lowerL_ba]
  unfold combinedScore
  dsimp only
  rw [kad_ab_ba, subseqScore_ab_ba, freq_ab_ba,
    show (subsequenceMatch ("ab".data) ("ba".data)).2.1 = 0 from by decide,
    show ("ab".data.head? == "ba".data.head?) = false from by decide,
    show ("ab".data).length = 2 from by decide,
    show ("ba".data).length = 2 from by decide]
  norm_num [strictVeryFuzzyOpts, defaultOptions, min_def, max_def]

/-- C3 (counterexample): for query `"ab"`, target `"ba"` and options
`minScore = 0.8`, `allowVeryFuzzy = true`, all conditions of the salvage
branch hold (frequency similarity 1 ≥ 0.7, combined score 0.725 < 0.8) and
the tier is forced to `fuzzy`, yet `isMatch` is `false` — refuting the claim
that the salvage branch always yields `isMatch = true`. -/
theorem fuzzyMatch_salvage_isMatch_counterexample :
    strictVeryFuzzyOpts.allowVeryFuzzy = true ∧
    7/10 ≤ characterFrequencySimilarity (lowerL ("ab".data)) (lowerL ("ba".data)) ∧
    combinedScore (lowerL ("ab".data)) (lowerL ("ba".data)) strictVeryFuzzyOpts
      < strictVeryFuzzyOpts.minScore ∧
    (fuzzyMatch ("ab".data) ("ba".data) strictVeryFuzzyOpts).score = 29/40 ∧
    (fuzzyMatch ("ab".data) ("ba".data) strictVeryFuzzyOpts).matchType = MatchType.fuzzy ∧
    (fuzzyMatch ("ab".data) ("ba".data) strictVeryFuzzyOpts).isMatch = false := by
  have hfreq : 7/10 ≤ characterFrequencySimilarity (lowerL ("ab".data)) (lowerL ("ba".data)) := by
    rw [lowerL_ab, lowerL_ba, freq_ab_ba]; norm_num
  have hlow : combinedScore (lowerL ("ab".data)) (lowerL ("ba".data)) strictVeryFuzzyOpts
      < strictVeryFuzzyOpts.minScore := by
    rw [combined_ab_ba]; norm_num [strictVeryFuzzyOpts, defaultOptions]
  have heval := fuzzyMatch_salvage_eval ("ab".data) ("ba".data) strictVeryFuzzyOpts
    (by decide) (by decide) (by decide) (by decide) rfl hfreq hlow
  refine ⟨rfl, hfreq, hlow, ?_, ?_, ?_⟩
  · rw [heval]
    show max (combinedScore (lowerL ("ab".data)) (lowerL ("ba".data)) strictVeryFuzzyOpts)
        (characterFrequencySimilarity (lowerL ("ab".data)) (lowerL ("ba".data)) * (1/2)) = 29/40
    rw [combined_ab_ba, lowerL_ab, lowerL_ba, freq_ab_ba]
    norm_num [max_def]
  · rw [heval]
  · rw [heval]
    show decide (strictVeryFuzzyOpts.minScore ≤
        max (combinedScore (lowerL ("ab".data)) (lowerL ("ba".data)) strictVeryFuzzyOpts)
          (characterFrequencySimilarity (lowerL ("ab".data)) (lowerL ("ba".data)) * (1/2))) = false
    apply decide_eq_false
    rw [combined_ab_ba, lowerL_ab, lowerL_ba, freq_ab_ba]
    norm_num [strictVeryFuzzyOpts, defaultOptions, max_def]

/-- Witness for the amended C3 at the same concrete input: the salvage
branch fires, the raised score is `max(0.725, 0.5)`, the tier is `fuzzy`,
and `isMatch` is equivalent to `0.8 ≤ max(0.725, 0.5)` (here false). -/
theorem fuzzyMatch_very_fuzzy_salvage_witness :
    (fuzzyMatch ("ab".data) ("ba".data) strictVeryFuzzyOpts).score
        = max (combinedScore (lowerL ("ab".data)) (lowerL ("ba".data)) strictVeryFuzzyOpts)
            (characterFrequencySimilarity (lowerL ("ab".data)) (lowerL ("ba".data)) * (1/2)) ∧
    (fuzzyMatch ("ab".data) ("ba".data) strictVeryFuzzyOpts).matchType = MatchType.fuzzy ∧
    ((fuzzyMatch ("ab".data) ("ba".data) strictVeryFuzzyOpts).isMatch = true ↔
      strictVeryFuzzyOpts.minScore ≤
        max (combinedScore (lowerL ("ab".data)) (lowerL ("ba".data)) strictVeryFuzzyOpts)
          (characterFrequencySimilarity (lowerL ("ab".data)) (lowerL ("ba".data)) * (1/2))) ∧
    (strictVeryFuzzyOpts.minScore ≤ 7/20 →
      (fuzzyMatch ("ab".data) ("ba".data) strictVeryFuzzyOpts).isMatch = true) :=
  fuzzyMatch_very_fuzzy_salvage ("ab".data) ("ba".data) strictVeryFuzzyOpts
    (by decide) (by decide) (by decide) (by decide) rfl
    (by rw [lowerL_ab, lowerL_ba, freq_ab_ba]; norm_num)
    (by rw [combined_ab_ba]; norm_num [strictVeryFuzzyOpts, defaultOptions])

/-! ## The require-path builder -/

/-- C2 (counterexample): with `currentLogicalPath = game.X.Y.Z.Current` and
`targetLogicalPath = game.X.Sibling`, the builder emits THREE `.Parent`
hops (`script.Parent.Parent.Parent.Sibling`), not two as claimed. -/
theorem relative_path_two_hops_counterexample :
    buildRequirePath ("game.X.Sibling".data) [] [] (some ("game.X.Y.Z.Current".data))
        ⟨PathStyle.auto, false⟩ = "script.Parent.Parent.Parent.Sibling".data ∧
    countParentHops (buildRequirePath ("game.X.Sibling".data) [] []
        (some ("game.X.Y.Z.Current".data)) ⟨PathStyle.auto, false⟩) = 3 ∧
    ¬ countParentHops (buildRequirePath ("game.X.Sibling".data) [] []
        (some ("game.X.Y.Z.Current".data)) ⟨PathStyle.auto, false⟩) = 2 := by
  decide

/-- C2 (amended): for `currentLogicalPath = game.X.Y.Z.Current` (5 segments)
and `targetLogicalPath = game.X.Sibling`, the longest common prefix has
length 2 (`game`, `X`), so the relative-path strategy produces exactly
`5 − 2 = 3` parent-hops (the configured maximum) before the target's
remaining segment. -/
theorem relative_path_boundary_amended :
    commonPrefixLen (splitOnChar '.' "game.X.Y.Z.Current".data)
        (splitOnChar '.' "game.X.Sibling".data) = 2 ∧
    (splitOnChar '.' "game.X.Y.Z.Current".data).length = 5 ∧
    (splitOnChar '.' "game.X.Y.Z.Current".data).length
        - commonPrefixLen (splitOnChar '.' "game.X.Y.Z.Current".data)
            (splitOnChar '.' "game.X.Sibling".data) = 3 ∧
    getRelativePath ⟨PathStyle.auto, false⟩ "game.X.Y.Z.Current".data ("game.X.Sibling".data)
        = some ("script.Parent.Parent.Parent.Sibling".data) ∧
    buildRequirePath ("game.X.Sibling".data) [] [] (some ("game.X.Y.Z.Current".data))
        ⟨PathStyle.auto, false⟩ = "script.Parent.Parent.Parent.Sibling".data ∧
    countParentHops ("script.Parent.Parent.Parent.Sibling".data) = 3 := by
  decide

/-- C7: `findDeepestMatchingVariable` on a depth-descending variable list
returns a matching binding of maximal depth among all matching bindings,
together with the target's remaining suffix; in particular bindings
`B → game.X.Y` (depth 3) / `A → game.X` (depth 2) resolve target
`game.X.Y.Z` to `B.Z` (never `A.Y.Z`), and `V2 → game.ReplicatedStorage.Shared`
over `V1 → game.ReplicatedStorage` resolve
`game.ReplicatedStorage.Shared.Utils` to `V2.Utils`. -/
theorem deepest_alias_binding_selected
    (target : List Char) (vars : List DefinedVariable) (v rem : List Char)
    (hsorted : vars.Pairwise (fun a b => b.depth ≤ a.depth))
    (hfind : findDeepestMatchingVariable target vars = some (v, rem)) :
    (∃ dv ∈ vars, dv.varName = v ∧ variableMatches target dv = true ∧
        rem = target.drop dv.instancePath.length ∧
        ∀ w ∈ vars, variableMatches target w = true → w.depth ≤ dv.depth) ∧
    buildRequirePath ("game.X.Y.Z".data) []
        [⟨"B".data, "game.X.Y".data, 3, 1⟩, ⟨"A".data, "game.X".data, 2, 0⟩]
        none ⟨PathStyle.auto, false⟩ = "B.Z".data ∧
    buildRequirePath ("game.ReplicatedStorage.Shared.Utils".data) []
        [⟨"V2".data, "game.ReplicatedStorage.Shared".data, 3, 1⟩,
          ⟨"V1".data, "game.ReplicatedStorage".data, 2, 0⟩]
        none ⟨PathStyle.auto, false⟩ = "V2.Utils".data := by
  refine ⟨?_, by decide, by decide⟩
  induction vars with
  | nil => simp [findDeepestMatchingVariable] at hfind
  | cons w ws IH =>
      rw [List.pairwise_cons] at hsorted
      by_cases h : variableMatches target w = true
      · rw [findDeepestMatchingVariable, if_pos h] at hfind
        obtain ⟨hv, hrem⟩ : w.varName = v ∧ target.drop w.instancePath.length = rem := by
          have := Option.some.inj hfind
          exact ⟨congrArg Prod.fst this, congrArg Prod.snd this⟩
        refine ⟨w, List.mem_cons_self w ws, hv, h, hrem.symm, ?_⟩
        intro z hz _
        rcases List.mem_cons.mp hz with hz | hz
        · subst hz; exact le_refl _
        · exact hsorted.1 z hz
      · rw [findDeepestMatchingVariable, if_neg h] at hfind
        obtain ⟨dv, hdv, h1, h2, h3, h4⟩ := IH hsorted.2 hfind
        refine ⟨dv, List.mem_cons_of_mem w hdv, h1, h2, h3, ?_⟩
        intro z hz hm
        rcases List.mem_cons.mp hz with hz | hz
        · subst hz; exact absurd hm h
        · exact h4 z hz hm

/-- Witness for C7: the depth-3 binding `B → game.X.Y` is selected for
target `game.X.Y.Z` with suffix `.Z`. -/
theorem deepest_alias_binding_selected_witness :
    (∃ dv ∈ [DefinedVariable.mk ("B".data) ("game.X.Y".data) 3 1,
        DefinedVariable.mk ("A".data) ("game.X".data) 2 0],
        dv.varName = "B".data ∧ variableMatches ("game.X.Y.Z".data) dv = true ∧
        ".Z".data = "game.X.Y.Z".data.drop dv.instancePath.length ∧
        ∀ w ∈ [DefinedVariable.mk ("B".data) ("game.X.Y".data) 3 1,
            DefinedVariable.mk ("A".data) ("game.X".data) 2 0],
          variableMatches ("game.X.Y.Z".data) w = true → w.depth ≤ dv.depth) ∧
    buildRequirePath ("game.X.Y.Z".data) []
        [⟨"B".data, "game.X.Y".data, 3, 1⟩, ⟨"A".data, "game.X".data, 2, 0⟩]
        none ⟨PathStyle.auto, false⟩ = "B.Z".data ∧
    buildRequirePath ("game.ReplicatedStorage.Shared.Utils".data) []
        [⟨"V2".data, "game.ReplicatedStorage.Shared".data, 3, 1⟩,
          ⟨"V1".data, "game.ReplicatedStorage".data, 2, 0⟩]
        none ⟨PathStyle.auto, false⟩ = "V2.Utils".data :=
  deepest_alias_binding_selected ("game.X.Y.Z".data)
    [⟨"B".data, "game.X.Y".data, 3, 1⟩, ⟨"A".data, "game.X".data, 2, 0⟩]
    "B".data (".Z".data) (by decide) (by decide)

/-! ## Index collapsing and the shape of resolved paths -/

/-- C1 (code bug): the Rojo-tier segment processing fails to strip a plain
`.luau` extension (its regex demands a second dot), so `init.luau` is NOT
recognized as an index file there: `.../Foo/init.luau` resolves through a
Rojo `$path` mapping to `game.Foo["init.luau"]` instead of `game.Foo`.
Only `init.server.luau`/`init.client.luau` collapse in that tier, while the
convention fallback (whose second replace strips plain `.luau`) collapses
`init.luau` correctly. -/
theorem init_luau_not_collapsed_in_rojo_tier :
    processPathSegments ["Foo".data, "init.luau".data]
        = ["Foo".data, "init.luau".data] ∧
    processPathSegments ["Foo".data, "init.server.luau".data] = ["Foo".data] ∧
    resolveInstancePath ["w".data] []
        [("w".data, RojoProject.mk (RojoTreeNode.mk (some ("src".data)) []))]
        "w/src/Foo/init.luau".data
      = "game.Foo[\"init.luau\"]".data ∧
    resolveFromConventionAsSegments ["w".data] "w/Foo/init.luau".data = ["Foo".data] ∧
    resolveInstancePath ["w".data] [] [] "w/Foo/init.luau".data = "game.Foo".data := by
  have hsearch : searchRojoTreeAsSegments (RojoTreeNode.mk (some ("src".data)) [])
      "src/Foo/init.luau".data [] = some ["Foo".data, "init.luau".data] := by
    rw [searchRojoTreeAsSegments]
    decide
  have hrojo : resolveFromRojoProjectAsSegments ["w".data]
      [("w".data, RojoProject.mk (RojoTreeNode.mk (some ("src".data)) []))]
      "w/src/Foo/init.luau".data = some ["Foo".data, "init.luau".data] := by
    unfold resolveFromRojoProjectAsSegments
    exact hsearch
  refine ⟨by decide, by decide, ?_, by decide, by decide⟩
  unfold resolveInstancePath
  rw [hrojo]
  decide

/-- Every `resolveInstancePath` output is `'game'` followed by the
`formatPathSegment`-rendering of some segment list. -/
lemma resolveInstancePath_shape (folders : List (List Char))
    (smaps : List (List Char × Sourcemap)) (projects : List (List Char × RojoProject))
    (fsPath : List Char) :
    ∃ segs : List (List Char),
      resolveInstancePath folders smaps projects fsPath
        = "game".data ++ buildSegPath segs := by
  unfold resolveInstancePath
  dsimp only
  cases hsm : resolveFromSourcemapAsSegments folders smaps fsPath with
  | some segs =>
      dsimp only
      split_ifs with h
      · exact ⟨segs, rfl⟩
      · cases hrj : resolveFromRojoProjectAsSegments folders projects fsPath with
        | some segs2 =>
            dsimp only
            split_ifs with h2
            · exact ⟨segs2, rfl⟩
            · exact ⟨resolveFromConventionAsSegments folders fsPath, rfl⟩
        | none => exact ⟨resolveFromConventionAsSegments folders fsPath, rfl⟩
  | none =>
      cases hrj : resolveFromRojoProjectAsSegments folders projects fsPath with
      | some segs2 =>
          dsimp only
          split_ifs with h2
          · exact ⟨segs2, rfl⟩
          · exact ⟨resolveFromConventionAsSegments folders fsPath, rfl⟩
      | none => exact ⟨resolveFromConventionAsSegments folders fsPath, rfl⟩

/-- Every outcome of the tiered control flow — including the catch branch —
is `'game'` followed by `formatPathSegment`-rendered segments. -/
lemma resolveInstancePathTiers_shape (t1 t2 : Except Unit (Option (List (List Char))))
    (t3 : Except Unit (List (List Char))) (fsPath : List Char) :
    ∃ segs : List (List Char),
      resolveInstancePathTiers t1 t2 t3 fsPath = "game".data ++ buildSegPath segs := by
  have hcatch : ∃ segs, catchFallbackPath fsPath = "game".data ++ buildSegPath segs := by
    refine ⟨[stripRojoExt (pathBasename fsPath)], ?_⟩
    simp [catchFallbackPath, buildSegPath]
  unfold resolveInstancePathTiers
  cases t1 with
  | error e => exact hcatch
  | ok o1 =>
      dsimp only
      cases o1 with
      | some segs =>
          dsimp only
          split_ifs with h
          · exact ⟨segs, rfl⟩
          · cases t2 with
            | error e => exact hcatch
            | ok o2 =>
                dsimp only
                cases o2 with
                | some segs2 =>
                    dsimp only
                    split_ifs with h2
                    · exact ⟨segs2, rfl⟩
                    · cases t3 with
                      | error e => exact hcatch
                      | ok segs3 => exact ⟨segs3, rfl⟩
                | none =>
                    cases t3 with
                    | error e => exact hcatch
                    | ok segs3 => exact ⟨segs3, rfl⟩
      | none =>
          cases t2 with
          | error e => exact hcatch
          | ok o2 =>
              dsimp only
              cases o2 with
              | some segs2 =>
                  dsimp only
                  split_ifs with h2
                  · exact ⟨segs2, rfl⟩
                  · cases t3 with
                    | error e => exact hcatch
                    | ok segs3 => exact ⟨segs3, rfl⟩
              | none =>
                  cases t3 with
                  | error e => exact hcatch
                  | ok segs3 => exact ⟨segs3, rfl⟩

/-- C5 (counterexample): the older resolver variant
(`src/pathResolver.ts`) joins bare segments with dots and applies no global
root prefix: `w/src/Foo.luau` resolves to `ReplicatedStorage.Foo`, which
does not start with `game` — refuting the claim for that
`resolveInstancePath`. -/
theorem old_resolver_not_game_prefixed :
    oldResolveInstancePath ["w".data] [] "w/src/Foo.luau".data
        = "ReplicatedStorage.Foo".data ∧
    "game".data.isPrefixOf (oldResolveInstancePath ["w".data] [] "w/src/Foo.luau".data)
        = false := by
  decide

/-- C5 (amended): every logical path returned by the part_003
`resolveInstancePath` — on the sourcemap, Rojo, convention and catch tiers —
is the fixed root token `game` followed by the concatenation of
`formatPathSegment`-rendered segments (dot notation for valid bare
identifiers, escaped bracket accessors otherwise); the older
`src/pathResolver.ts` variant does not have this shape. -/
theorem resolveInstancePath_game_prefixed_formatted :
    (∀ (folders : List (List Char)) (smaps : List (List Char × Sourcemap))
        (projects : List (List Char × RojoProject)) (fsPath : List Char),
      ∃ segs : List (List Char),
        resolveInstancePath folders smaps projects fsPath
          = "game".data ++ buildSegPath segs) ∧
    (∀ (t1 t2 : Except Unit (Option (List (List Char))))
        (t3 : Except Unit (List (List Char))) (fsPath : List Char),
      ∃ segs : List (List Char),
        resolveInstancePathTiers t1 t2 t3 fsPath = "game".data ++ buildSegPath segs) ∧
    "game".data.isPrefixOf (oldResolveInstancePath ["w".data] [] "w/src/Foo.luau".data)
        = false :=
  ⟨resolveInstancePath_shape, resolveInstancePathTiers_shape, by decide⟩

/-- C6 (counterexample): an exception in the sourcemap tier does NOT fall
through to the Rojo tier: with tier 1 throwing and tier 2 returning `X`,
the result is the minimal bare-file-name path `game.Foo`, not `game.X` —
whereas a mere `null` from tier 1 does fall through and yields `game.X`. -/
theorem tier_exception_does_not_fall_through :
    resolveInstancePathTiers (Except.error ()) (Except.ok (some ["X".data]))
        (Except.ok ["Y".data]) "w/Foo.server.luau".data = "game.Foo".data ∧
    resolveInstancePathTiers (Except.ok none) (Except.ok (some ["X".data]))
        (Except.ok ["Y".data]) "w/Foo.server.luau".data = "game.X".data ∧
    ¬ resolveInstancePathTiers (Except.error ()) (Except.ok (some ["X".data]))
        (Except.ok ["Y".data]) "w/Foo.server.luau".data = "game.X".data := by
  decide

/-- C6 (amended): `resolveInstancePath` never propagates an exception —
all three tiers run inside a single try, and an exception in ANY tier goes
straight to the catch branch, which returns the minimal path built from the
bare file name (it does not retry the remaining tiers); a `null`/empty tier
result does fall through; and the returned logical path is never empty. -/
theorem resolveInstancePath_total_never_empty :
    (∀ t2 t3 fp, resolveInstancePathTiers (Except.error ()) t2 t3 fp
        = catchFallbackPath fp) ∧
    (∀ t3 fp, resolveInstancePathTiers (Except.ok none) (Except.error ()) t3 fp
        = catchFallbackPath fp) ∧
    (∀ fp, resolveInstancePathTiers (Except.ok none) (Except.ok none) (Except.error ()) fp
        = catchFallbackPath fp) ∧
    (∀ t1 t2 t3 fp, resolveInstancePathTiers t1 t2 t3 fp ≠ []) ∧
    (∀ folders smaps projects fsPath,
      resolveInstancePath folders smaps projects fsPath ≠ []) := by
  refine ⟨fun _ _ _ => rfl, fun _ _ => rfl, fun _ => rfl, ?_, ?_⟩
  · intro t1 t2 t3 fp h
    obtain ⟨segs, hs⟩ := resolveInstancePathTiers_shape t1 t2 t3 fp
    rw [hs] at h
    simp at h
  · intro folders smaps projects fsPath h
    obtain ⟨segs, hs⟩ := resolveInstancePath_shape folders smaps projects fsPath
    rw [hs] at h
    simp at h

/-- Witness for the amended C6 at concrete inputs: a tier-1 exception lands
on the catch path, and concrete resolver runs are non-empty. -/
theorem resolveInstancePath_total_never_empty_witness :
    resolveInstancePathTiers (Except.error ()) (Except.ok none) (Except.ok [])
        ("w/Foo".data) = catchFallbackPath ("w/Foo".data) ∧
    resolveInstancePathTiers (Except.ok none) (Except.ok none) (Except.ok [("X".data)])
        ("w/Foo".data) ≠ [] ∧
    resolveInstancePath [("w".data)] [] [] ("w/Foo.luau".data) ≠ [] :=
  ⟨resolveInstancePath_total_never_empty.1 (Except.ok none) (Except.ok []) ("w/Foo".data),
    resolveInstancePath_total_never_empty.2.2.2.1 (Except.ok none) (Except.ok none)
      (Except.ok [("X".data)]) ("w/Foo".data),
    resolveInstancePath_total_never_empty.2.2.2.2 [("w".data)] [] [] ("w/Foo.luau".data)⟩

end AutoRequire
